import Mathlib

/-
Verification of the chat relay in src/chat/consumers.py (class ChatConsumer)
against its specification.

The consumer code itself (connect, disconnect, receive, chat_message) is
embedded directly from the source. The channel layer it calls
(channel_layer.group_add / group_discard / group_send) is a library
collaborator whose code is not part of this repository; those operations are
modelled from the specification of the Room Registry and Broadcast Engine
(spec sections 4.1 and 4.2), as is the validity requirement on group names
recorded in the source commentary.
-/

/-- JSON values, as produced by the Python json.loads call in receive.
Numbers are modelled as integers; no claim depends on number semantics. -/
inductive Json where
  | null : Json
  | bool : Bool → Json
  | num : Int → Json
  | str : String → Json
  | arr : List Json → Json
  | obj : List (String × Json) → Json
deriving Repr

/-- Lookup of a key in a parsed JSON object. A Python dict built by
json.loads keeps the last binding of a duplicated key, so the lookup
takes the last matching pair. -/
def dictGet (fields : List (String × Json)) (key : String) : Option Json :=
  fields.foldl (fun acc p => if p.1 = key then some p.2 else acc) none

/-- Modelled from the spec: the Room Registry state, a mapping from group
name to the set of member channel names (spec section 4.1). A room with no
members is identified with an absent room (the registry drops empty
entries, which is observationally the empty member list). -/
def Registry : Type := String → List String

/-- The registry with no members anywhere. -/
def emptyRegistry : Registry := fun _ => []

/-- Modelled from the spec: the member snapshot of a group
(Room Registry members, spec section 4.1). -/
def members (g : String) (st : Registry) : List String := st g

/-- Modelled from the spec: a group name is valid when it consists only of
ASCII alphanumerics, hyphens, underscores and periods (the restriction
recorded in the source commentary and in spec section 6; room names that
violate it make the join fail). -/
def validGroupName (g : String) : Bool :=
  !g.data.isEmpty &&
    g.data.all fun c => c.isAlphanum || c == '-' || c == '_' || c == '.'

/-- Failure of a channel-layer operation. -/
inductive ChannelError where
  | invalidGroupName : ChannelError
deriving DecidableEq, Repr

/-- Modelled from the spec: Room Registry join (channel_layer.group_add).
Adds the channel to the group member set; idempotent if already a member
(no duplicate); creates an unknown group; fails on an invalid group name
(spec sections 4.1 and 6). -/
def group_add (g ch : String) (st : Registry) : Except ChannelError Registry :=
  if validGroupName g then
    .ok fun g' =>
      if g' = g then (if ch ∈ st g then st g else st g ++ [ch]) else st g'
  else .error .invalidGroupName

/-- Modelled from the spec: Room Registry leave (channel_layer.group_discard).
Removes the channel from the group member set; leaving a non-member or a
non-existent room is a no-op, not an error (spec section 4.1). -/
def group_discard (g ch : String) (st : Registry) : Registry :=
  fun g' => if g' = g then (st g).erase ch else st g'

/-- The event dict sent through the channel layer by receive:
the Python dict with keys type and message. -/
structure GroupEvent where
  type : String
  message : Json
deriving Repr

/-- Modelled from the spec: Broadcast Engine fan-out
(channel_layer.group_send). Delivers the event once to every member of the
group, the sender included (symmetric policy, spec section 4.2). -/
def group_send (g : String) (ev : GroupEvent) (st : Registry) :
    List (String × GroupEvent) :=
  (members g st).map fun ch => (ch, ev)

/-- The group name built in ChatConsumer.connect:
self.room_group_name is the chat_ tag followed by self.room_name
(the percent-format on the tag string). -/
def roomGroupName (room : String) : String := "chat_" ++ room

/-- ChatConsumer.connect: joins the room group, then calls self.accept().
The returned Bool is whether accept() ran. When group_add fails the
exception propagates, accept() is never reached and the registry is
unchanged. -/
def connect (room ch : String) (st : Registry) : Registry × Bool :=
  match group_add (roomGroupName room) ch st with
  | .ok st' => (st', true)
  | .error _ => (st, false)

/-- ChatConsumer.disconnect: leaves the room group. -/
def disconnect (room ch : String) (st : Registry) : Registry :=
  group_discard (roomGroupName room) ch st

/-- ChatConsumer.chat_message: receives an event from the room group and
sends json.dumps of the Python dict with the single key message over the
WebSocket. The frame is represented by the JSON value handed to
json.dumps. -/
def chat_message (ev : GroupEvent) : Json :=
  Json.obj [("message", ev.message)]

/-- The error raised inside ChatConsumer.receive on a malformed frame:
json.loads raises ValueError on invalid JSON; indexing with the string
key message raises TypeError on a non-object and KeyError on an object
without that key. -/
inductive RecvError where
  | valueError : RecvError
  | typeError : RecvError
  | keyError : RecvError
deriving DecidableEq, Repr

/-- ChatConsumer.receive followed by the chat_message handler of every
recipient. The inbound frame is represented by its parse result: none for
text that is not valid JSON, some j for text that parses to j. On success
the result is the list of (recipient channel, WebSocket frame) deliveries
produced by group_send to the room group; on a malformed frame the raised
error is returned and nothing is sent to the group. -/
def receive (room : String) (textData : Option Json) (st : Registry) :
    Except RecvError (List (String × Json)) :=
  match textData with
  | none => .error .valueError
  | some (Json.obj fields) =>
    match dictGet fields "message" with
    | none => .error .keyError
    | some m =>
      .ok ((group_send (roomGroupName room) ⟨"chat_message", m⟩ st).map
        fun p => (p.1, chat_message p.2))
  | some _ => .error .typeError

/-- Modelled from the spec: fan-out in which the send capability of a
member may fail; a per-member failure is caught, skipped and never
escalated, delivery proceeds to the remaining members
(spec sections 4.2 and 7, MemberUnreachable). sendOk tells whether the
send capability of a member succeeds. -/
def broadcastWith (sendOk : String → Bool) (g : String) (ev : GroupEvent)
    (st : Registry) : List (String × Json) :=
  (members g st).filterMap fun ch =>
    if sendOk ch then some (ch, chat_message ev) else none

/-- Whether an inbound frame parses as the expected message envelope:
a JSON object with a message field (spec sections 6 and 7). -/
def isEnvelope (textData : Option Json) : Bool :=
  match textData with
  | some (Json.obj fields) => (dictGet fields "message").isSome
  | _ => false

/-- Lifecycle events of the system: a consumer connecting to a room, a
consumer disconnecting, and an inbound WebSocket frame. -/
inductive Ev where
  | conn (room ch : String) : Ev
  | disconn (room ch : String) : Ev
  | recv (room ch : String) (textData : Option Json) : Ev

/-- The registry transition of one lifecycle event: connect and disconnect
mutate membership through the channel layer; receive only broadcasts and
leaves membership untouched. -/
def step (st : Registry) (e : Ev) : Registry :=
  match e with
  | .conn room ch => (connect room ch st).1
  | .disconn room ch => disconnect room ch st
  | .recv _ _ _ => st

/-- The registry after a sequence of lifecycle events. -/
def run (st : Registry) (es : List Ev) : Registry := es.foldl step st

/-- Whether an event is a connect of the given channel. -/
def connectsCh (ch : String) : Ev → Bool
  | .conn _ c => c == ch
  | _ => false

/-- A join or leave operation on one room of the Room Registry
(spec section 4.1). -/
inductive RegOp where
  | join (ch : String) : RegOp
  | leave (ch : String) : RegOp

/-- The registry after one join or leave on group g. A join that fails
(invalid group name) leaves the registry unchanged. -/
def applyRegOp (g : String) (st : Registry) : RegOp → Registry
  | .join ch =>
    match group_add g ch st with
    | .ok st' => st'
    | .error _ => st
  | .leave ch => group_discard g ch st

/-- Modelled from the spec words of the testable property in section 8:
whether a channel has more joins-since-last-leave than leaves after the
operation sequence, continuing from starting membership b; that is, the
last operation naming the channel is a join. -/
def specMemberFrom (b : Bool) (ch : String) (ops : List RegOp) : Bool :=
  ops.foldl (fun b op =>
    match op with
    | RegOp.join c => if c = ch then true else b
    | RegOp.leave c => if c = ch then false else b) b

/-- Modelled from the spec words of the testable property in section 8:
specMemberFrom starting from a channel that is not yet a member. -/
def specMember (ch : String) (ops : List RegOp) : Bool :=
  specMemberFrom false ch ops

/-- A concrete registry used by witnesses: room lobby with members A, B. -/
def stLobby : Registry := fun g => if g = "chat_lobby" then ["A", "B"] else []

/-- A concrete registry used by witnesses: room lobby with members
A, B and C. -/
def stLobby3 : Registry :=
  fun g => if g = "chat_lobby" then ["A", "B", "C"] else []

/-- A concrete registry used by witnesses: channel A is a member of room1
only, channel X is a member of room2 only. -/
def stTwoRooms : Registry :=
  fun g =>
    if g = "chat_room1" then ["A"] else if g = "chat_room2" then ["X"] else []

/-! Helper lemmas about the embedded operations. -/

theorem roomGroupName_injective (s1 s2 : String)
    (h : roomGroupName s1 = roomGroupName s2) : s1 = s2 := by
  have hd := congrArg String.data h
  simp [roomGroupName, String.data_append] at hd
  exact String.ext hd

theorem group_add_ok_members (g₀ c g : String) (st st' : Registry)
    (hok : group_add g₀ c st = Except.ok st') :
    members g st' =
      if g = g₀ then
        (if c ∈ members g₀ st then members g₀ st else members g₀ st ++ [c])
      else members g st := by
  unfold group_add at hok
  split at hok
  · cases hok
    simp [members]
  · cases hok

theorem group_add_error_iff (g₀ c : String) (st : Registry) :
    (∃ e, group_add g₀ c st = Except.error e) ↔ validGroupName g₀ = false := by
  unfold group_add
  constructor
  · rintro ⟨e, he⟩
    split at he
    · cases he
    · simp_all
  · intro hv
    exact ⟨ChannelError.invalidGroupName, by simp [hv]⟩

theorem members_group_discard (g₀ c g : String) (st : Registry) :
    members g (group_discard g₀ c st) =
      if g = g₀ then (members g₀ st).erase c else members g st := by
  simp [group_discard, members]

theorem connect_fst_of_invalid (room ch : String) (st : Registry)
    (hv : validGroupName (roomGroupName room) = false) :
    connect room ch st = (st, false) := by
  simp [connect, group_add, hv]

theorem connect_of_valid (room ch : String) (st : Registry)
    (hv : validGroupName (roomGroupName room) = true) :
    group_add (roomGroupName room) ch st = Except.ok (connect room ch st).1 ∧
      (connect room ch st).2 = true := by
  simp [connect, group_add, hv]

theorem mem_members_connect (room ch' g X : String) (st : Registry)
    (h : X ∈ members g (connect room ch' st).1) : X ∈ members g st ∨ X = ch' := by
  by_cases hv : validGroupName (roomGroupName room) = true
  · obtain ⟨hok, -⟩ := connect_of_valid room ch' st hv
    rw [group_add_ok_members (roomGroupName room) ch' g st _ hok] at h
    split at h
    · split at h
      · subst g
        exact Or.inl h
      · rcases List.mem_append.mp h with h1 | h2
        · subst g
          exact Or.inl h1
        · exact Or.inr (List.mem_singleton.mp h2)
    · exact Or.inl h
  · rw [connect_fst_of_invalid room ch' st (by simpa using hv)] at h
    exact Or.inl h

theorem not_mem_members_step (ch g : String) (st : Registry) (e : Ev)
    (hch : connectsCh ch e = false) (h : ch ∉ members g st) :
    ch ∉ members g (step st e) := by
  cases e with
  | conn room c =>
    intro hmem
    rcases mem_members_connect room c g ch st hmem with h1 | h2
    · exact h h1
    · simp [connectsCh, h2] at hch
  | disconn room c =>
    intro hmem
    rw [step, disconnect, members_group_discard] at hmem
    split at hmem
    · exact h (by subst g; exact List.mem_of_mem_erase hmem)
    · exact h hmem
  | recv room c t => exact h

theorem not_mem_members_run (ch g : String) (st : Registry) (es : List Ev)
    (hch : ∀ e ∈ es, connectsCh ch e = false) (h : ch ∉ members g st) :
    ch ∉ members g (run st es) := by
  induction es generalizing st with
  | nil => exact h
  | cons e es ih =>
    exact ih (step st e) (fun e' he' => hch e' (List.mem_cons_of_mem e he'))
      (not_mem_members_step ch g st e (hch e (List.mem_cons_self e es)) h)

theorem receive_ok_recipients (room : String) (textData : Option Json)
    (st : Registry) (ds : List (String × Json))
    (hok : receive room textData st = Except.ok ds) :
    ∀ d ∈ ds, d.1 ∈ members (roomGroupName room) st := by
  cases textData with
  | none => simp [receive] at hok
  | some j =>
    cases j with
    | obj fields =>
      simp only [receive] at hok
      rcases hmsg : dictGet fields "message" with - | m <;> rw [hmsg] at hok
      · cases hok
      · cases hok
        intro d hd
        simp only [group_send, List.map_map, List.mem_map] at hd
        obtain ⟨c, hc, rfl⟩ := hd
        exact hc
    | null => simp [receive] at hok
    | bool b => simp [receive] at hok
    | num n => simp [receive] at hok
    | str s => simp [receive] at hok
    | arr xs => simp [receive] at hok

/-! Claim theorems. -/

/-- C7: connect registers the membership of the connection in the room
group (the join runs to completion) before the connection is accepted,
and when the join fails on an invalid room name the connection is never
accepted and the registry is unchanged. -/
theorem connect_joins_before_accept (room ch : String) (st : Registry) :
    ((connect room ch st).2 = true ↔ validGroupName (roomGroupName room) = true) ∧
    ((connect room ch st).2 = true →
      ch ∈ members (roomGroupName room) (connect room ch st).1) ∧
    ((connect room ch st).2 = false → (connect room ch st).1 = st) := by
  by_cases hv : validGroupName (roomGroupName room) = true
  · obtain ⟨hok, hacc⟩ := connect_of_valid room ch st hv
    refine ⟨by simp [hacc, hv], fun _ => ?_, fun hf => absurd hacc (by simp [hf])⟩
    rw [group_add_ok_members (roomGroupName room) ch (roomGroupName room) st _ hok,
      if_pos rfl]
    split
    · next hmem => exact hmem
    · exact List.mem_append_right _ (List.mem_singleton_self ch)
  · have hv' : validGroupName (roomGroupName room) = false := by simpa using hv
    rw [connect_fst_of_invalid room ch st hv']
    exact ⟨by simp [hv'], by simp, fun _ => rfl⟩

/-- Witness for C7 at the valid room lobby and at the invalid room name
from the spec scenario. -/
theorem connect_joins_before_accept_witness :
    ((connect "lobby" "A" emptyRegistry).2 = true ∧
      "A" ∈ members (roomGroupName "lobby") (connect "lobby" "A" emptyRegistry).1) ∧
    ((connect "lobby;rm -rf" "A" emptyRegistry).2 = false ∧
      (connect "lobby;rm -rf" "A" emptyRegistry).1 = emptyRegistry) := by
  refine ⟨⟨?_, ?_⟩, ?_, ?_⟩
  · exact (connect_joins_before_accept "lobby" "A" emptyRegistry).1.mpr (by decide)
  · exact (connect_joins_before_accept "lobby" "A" emptyRegistry).2.1 (by decide)
  · decide
  · exact (connect_joins_before_accept "lobby;rm -rf" "A" emptyRegistry).2.2 (by decide)

/-- C4: an inbound frame that does not parse as the expected message
envelope makes receive raise a local error on the receiving consumer,
nothing is delivered to any member, and membership state is unchanged
(the recv transition leaves the registry as it is). -/
theorem malformed_frame_local_error (room ch : String) (st : Registry)
    (textData : Option Json) (hbad : isEnvelope textData = false) :
    (∃ e, receive room textData st = Except.error e) ∧
    step st (Ev.recv room ch textData) = st := by
  refine ⟨?_, rfl⟩
  cases textData with
  | none => exact ⟨RecvError.valueError, rfl⟩
  | some j =>
    cases j with
    | obj fields =>
      simp only [isEnvelope] at hbad
      rcases hmsg : dictGet fields "message" with - | m
      · exact ⟨RecvError.keyError, by simp only [receive, hmsg]⟩
      · rw [hmsg] at hbad
        cases hbad
    | null => exact ⟨RecvError.typeError, rfl⟩
    | bool b => exact ⟨RecvError.typeError, rfl⟩
    | num n => exact ⟨RecvError.typeError, rfl⟩
    | str s => exact ⟨RecvError.typeError, rfl⟩
    | arr xs => exact ⟨RecvError.typeError, rfl⟩

/-- Witness for C4: a frame whose JSON is a bare string is not the
expected envelope; receive raises and the registry is untouched. -/
theorem malformed_frame_local_error_witness :
    (∃ e, receive "lobby" (some (Json.str "oops")) stLobby = Except.error e) ∧
    step stLobby (Ev.recv "lobby" "A" (some (Json.str "oops"))) = stLobby :=
  malformed_frame_local_error "lobby" "A" stLobby (some (Json.str "oops")) (by decide)

/-- C2: an inbound frame that parses as a JSON object whose message field
is the string m makes every recipient of the broadcast receive exactly the
outbound envelope with the single key message and value m; the message
value round-trips unchanged through receive and chat_message. -/
theorem message_value_roundtrip (room : String) (st : Registry)
    (fields : List (String × Json)) (m : String)
    (hmsg : dictGet fields "message" = some (Json.str m)) :
    receive room (some (Json.obj fields)) st =
      Except.ok ((members (roomGroupName room) st).map
        fun c => (c, Json.obj [("message", Json.str m)])) := by
  simp only [receive, hmsg, group_send, List.map_map]
  rfl

/-- Witness for C2: the spec scenario, A and B in room lobby, inbound
message hi, both receive the envelope with hi. -/
theorem message_value_roundtrip_witness :
    receive "lobby" (some (Json.obj [("message", Json.str "hi")])) stLobby =
      Except.ok [("A", Json.obj [("message", Json.str "hi")]),
        ("B", Json.obj [("message", Json.str "hi")])] := by
  rw [message_value_roundtrip "lobby" stLobby [("message", Json.str "hi")] "hi" rfl]
  rfl

/-- C10: whatever the message value v is (string or not) and whatever
other keys the inbound object carries, every recipient receives an
outbound frame that is exactly the object with the single key message and
value v, and the extra keys have no influence on the result. -/
theorem outbound_envelope_single_key (room : String) (st : Registry)
    (fields : List (String × Json)) (v : Json)
    (hmsg : dictGet fields "message" = some v) :
    receive room (some (Json.obj fields)) st =
      Except.ok ((members (roomGroupName room) st).map
        fun c => (c, Json.obj [("message", v)])) ∧
    receive room (some (Json.obj fields)) st =
      receive room (some (Json.obj [("message", v)])) st := by
  have h1 : receive room (some (Json.obj fields)) st =
      Except.ok ((members (roomGroupName room) st).map
        fun c => (c, Json.obj [("message", v)])) := by
    simp only [receive, hmsg, group_send, List.map_map]
    rfl
  refine ⟨h1, h1.trans ?_⟩
  simp only [receive, group_send, List.map_map, dictGet, List.foldl]
  rfl

/-- Witness for C10: a non-string message value and two extra keys; both
recipients get only the message key, re-serialized. -/
theorem outbound_envelope_single_key_witness :
    receive "lobby"
        (some (Json.obj [("x", Json.null), ("message", Json.num 5),
          ("y", Json.bool true)])) stLobby =
      Except.ok [("A", Json.obj [("message", Json.num 5)]),
        ("B", Json.obj [("message", Json.num 5)])] ∧
    receive "lobby"
        (some (Json.obj [("x", Json.null), ("message", Json.num 5),
          ("y", Json.bool true)])) stLobby =
      receive "lobby" (some (Json.obj [("message", Json.num 5)])) stLobby := by
  have h := outbound_envelope_single_key "lobby" stLobby
    [("x", Json.null), ("message", Json.num 5), ("y", Json.bool true)]
    (Json.num 5) rfl
  exact ⟨h.1.trans (by rfl), h.2⟩

/-- C9: the group name is the fixed chat tag followed by the room name,
distinct rooms get distinct groups, and a broadcast in room r1 is never
delivered to a channel whose only membership is a different room r2. -/
theorem room_isolation (r1 r2 ch : String) (st : Registry)
    (textData : Option Json) (ds : List (String × Json))
    (hmem : ∀ g, ch ∈ members g st → g = roomGroupName r2)
    (hne : r1 ≠ r2)
    (hok : receive r1 textData st = Except.ok ds) :
    roomGroupName r1 = "chat_" ++ r1 ∧
    roomGroupName r1 ≠ roomGroupName r2 ∧
    ∀ d ∈ ds, d.1 ≠ ch := by
  refine ⟨rfl, fun hgg => hne (roomGroupName_injective r1 r2 hgg), fun d hd heq => ?_⟩
  have h1 := receive_ok_recipients r1 textData st ds hok d hd
  rw [heq] at h1
  exact hne (roomGroupName_injective r1 r2 (hmem _ h1))

/-- Witness for C9: X is a member of room2 only; a broadcast in room1
reaches only A and in particular not X. -/
theorem room_isolation_witness :
    roomGroupName "room1" = "chat_" ++ "room1" ∧
    roomGroupName "room1" ≠ roomGroupName "room2" ∧
    ∀ d ∈ [(("A" : String), Json.obj [("message", Json.str "hi")])], d.1 ≠ "X" := by
  refine room_isolation "room1" "room2" "X" stTwoRooms
    (some (Json.obj [("message", Json.str "hi")]))
    [("A", Json.obj [("message", Json.str "hi")])] ?_ (by decide) (by rfl)
  intro g hg
  simp only [members, stTwoRooms] at hg
  split at hg
  · exact absurd hg (by decide)
  · split at hg
    · next h2 => rw [h2]; rfl
    · exact absurd hg (by decide)

/-- C1: broadcasting in a room whose member set is the three distinct
channels A, B, C with sender A delivers the payload to A, B and C exactly
once each: the sender is included in the fan-out and no member receives
the same broadcast twice. -/
theorem broadcast_symmetric_exactly_once (room A B C : String) (st : Registry)
    (fields : List (String × Json)) (m : Json)
    (hmem : members (roomGroupName room) st = [A, B, C])
    (hAB : A ≠ B) (hAC : A ≠ C) (hBC : B ≠ C)
    (hmsg : dictGet fields "message" = some m) :
    receive room (some (Json.obj fields)) st =
      Except.ok [(A, Json.obj [("message", m)]), (B, Json.obj [("message", m)]),
        (C, Json.obj [("message", m)])] ∧
    ∀ X ∈ [A, B, C],
      List.countP (fun d => d.1 == X)
        [(A, Json.obj [("message", m)]), (B, Json.obj [("message", m)]),
          (C, Json.obj [("message", m)])] = 1 := by
  constructor
  · simp only [receive, hmsg, group_send, hmem, List.map_map]
    rfl
  · intro X hX
    rcases List.mem_cons.mp hX with rfl | hX
    · simp [List.countP_cons, beq_iff_eq, Ne.symm hAB, Ne.symm hAC]
    rcases List.mem_cons.mp hX with rfl | hX
    · simp [List.countP_cons, beq_iff_eq, hAB, Ne.symm hBC]
    rcases List.mem_singleton.mp hX with rfl
    simp [List.countP_cons, beq_iff_eq, hAC, hBC]

/-- Witness for C1: room lobby with distinct members A, B, C; each of the
three receives the broadcast exactly once. -/
theorem broadcast_symmetric_exactly_once_witness :
    receive "lobby" (some (Json.obj [("message", Json.str "hi")])) stLobby3 =
      Except.ok [("A", Json.obj [("message", Json.str "hi")]),
        ("B", Json.obj [("message", Json.str "hi")]),
        ("C", Json.obj [("message", Json.str "hi")])] ∧
    List.countP (fun d => d.1 == "A")
      [(("A" : String), Json.obj [("message", Json.str "hi")]),
        ("B", Json.obj [("message", Json.str "hi")]),
        ("C", Json.obj [("message", Json.str "hi")])] = 1 := by
  have h := broadcast_symmetric_exactly_once "lobby" "A" "B" "C" stLobby3
    [("message", Json.str "hi")] (Json.str "hi") rfl (by decide) (by decide)
    (by decide) rfl
  exact ⟨h.1, h.2 "A" (by decide)⟩

/-- C6: when the send capability of member B fails during a broadcast in
a room with members A, B, C, delivery proceeds to the remaining members:
the fan-out completes without raising and A and C still receive the
frame. -/
theorem broadcast_tolerates_send_failure (room A B C : String) (st : Registry)
    (ev : GroupEvent) (sendOk : String → Bool)
    (hmem : members (roomGroupName room) st = [A, B, C])
    (hA : sendOk A = true) (hB : sendOk B = false) (hC : sendOk C = true) :
    broadcastWith sendOk (roomGroupName room) ev st =
      [(A, chat_message ev), (C, chat_message ev)] := by
  simp [broadcastWith, hmem, hA, hB, hC]

/-- Witness for C6: the send to B fails, A and C still get the frame and
the fan-out returns normally. -/
theorem broadcast_tolerates_send_failure_witness :
    broadcastWith (fun c => !(c == "B")) (roomGroupName "lobby")
        ⟨"chat_message", Json.str "hi"⟩ stLobby3 =
      [("A", Json.obj [("message", Json.str "hi")]),
        ("C", Json.obj [("message", Json.str "hi")])] :=
  broadcast_tolerates_send_failure "lobby" "A" "B" "C" stLobby3
    ⟨"chat_message", Json.str "hi"⟩ (fun c => !(c == "B"))
    rfl (by decide) (by decide) (by decide)

/-- C8: the first disconnect removes the membership, and a second
disconnect of the same channel from the same room leaves the registry
exactly as the first left it and raises no error. -/
theorem disconnect_idempotent (room ch : String) (st : Registry)
    (hN : (members (roomGroupName room) st).Nodup) :
    ch ∉ members (roomGroupName room) (disconnect room ch st) ∧
    disconnect room ch (disconnect room ch st) = disconnect room ch st := by
  constructor
  · rw [disconnect, members_group_discard, if_pos rfl]
    exact hN.not_mem_erase
  · funext g'
    by_cases hg : g' = roomGroupName room
    · subst hg
      simp only [disconnect, group_discard, if_pos rfl]
      exact List.erase_of_not_mem hN.not_mem_erase
    · simp only [disconnect, group_discard, if_neg hg]

/-- Witness for C8: disconnecting B twice from lobby equals disconnecting
once, and B is gone after the first disconnect. -/
theorem disconnect_idempotent_witness :
    "B" ∉ members (roomGroupName "lobby") (disconnect "lobby" "B" stLobby) ∧
    disconnect "lobby" "B" (disconnect "lobby" "B" stLobby) =
      disconnect "lobby" "B" stLobby :=
  disconnect_idempotent "lobby" "B" stLobby (by decide)

/-- C3: once the disconnect of a channel has been processed it is a
member of zero rooms, and after any further events that never reconnect
that channel, a broadcast delivers nothing to it. -/
theorem close_then_never_delivered (room ch : String) (st : Registry)
    (es : List Ev) (room2 : String) (textData : Option Json)
    (ds : List (String × Json))
    (hone : ∀ g, ch ∈ members g st → g = roomGroupName room)
    (hN : (members (roomGroupName room) st).Nodup)
    (hch : ∀ e ∈ es, connectsCh ch e = false)
    (hok : receive room2 textData (run (disconnect room ch st) es) =
      Except.ok ds) :
    (∀ g, ch ∉ members g (disconnect room ch st)) ∧
    ∀ d ∈ ds, d.1 ≠ ch := by
  have hzero : ∀ g, ch ∉ members g (disconnect room ch st) := by
    intro g
    rw [disconnect, members_group_discard]
    by_cases hg : g = roomGroupName room
    · rw [if_pos hg]
      exact hN.not_mem_erase
    · rw [if_neg hg]
      intro hmem
      exact hg (hone g hmem)
  refine ⟨hzero, fun d hd heq => ?_⟩
  have h1 := receive_ok_recipients room2 textData _ ds hok d hd
  have h2 := not_mem_members_run ch (roomGroupName room2)
    (disconnect room ch st) es hch (hzero _)
  rw [heq] at h1
  exact h2 h1

/-- Witness for C3: B disconnects from lobby; afterwards D connects and a
broadcast in lobby reaches A and D only, never B. -/
theorem close_then_never_delivered_witness :
    (∀ g, "B" ∉ members g (disconnect "lobby" "B" stLobby)) ∧
    ∀ d ∈ [(("A" : String), Json.obj [("message", Json.str "yo")]),
        ("D", Json.obj [("message", Json.str "yo")])],
      d.1 ≠ "B" := by
  refine close_then_never_delivered "lobby" "B" stLobby [Ev.conn "lobby" "D"]
    "lobby" (some (Json.obj [("message", Json.str "yo")]))
    [("A", Json.obj [("message", Json.str "yo")]),
      ("D", Json.obj [("message", Json.str "yo")])] ?_ (by decide) (by decide) (by rfl)
  intro g hg
  simp only [members, stLobby] at hg
  split at hg
  · next h1 => rw [h1]; rfl
  · exact absurd hg (by decide)

theorem members_applyRegOp_join (g c : String) (st : Registry)
    (hg : validGroupName g = true) :
    members g (applyRegOp g st (RegOp.join c)) =
      if c ∈ members g st then members g st else members g st ++ [c] := by
  have hadd : group_add g c st = Except.ok (fun g' =>
      if g' = g then (if c ∈ st g then st g else st g ++ [c]) else st g') := by
    simp [group_add, hg]
  simp [applyRegOp, hadd, members]

theorem members_applyRegOp_leave (g c : String) (st : Registry) :
    members g (applyRegOp g st (RegOp.leave c)) = (members g st).erase c := by
  simp [applyRegOp, group_discard, members]

theorem foldl_applyRegOp_invariant (g : String) (hg : validGroupName g = true)
    (ops : List RegOp) :
    ∀ st : Registry, (members g st).Nodup →
      (members g (ops.foldl (applyRegOp g) st)).Nodup ∧
      ∀ ch, (ch ∈ members g (ops.foldl (applyRegOp g) st) ↔
        specMemberFrom (decide (ch ∈ members g st)) ch ops = true) := by
  induction ops with
  | nil =>
    intro st hN
    exact ⟨hN, fun ch => by simp [specMemberFrom]⟩
  | cons op ops ih =>
    intro st hN
    have hN' : (members g (applyRegOp g st op)).Nodup := by
      cases op with
      | join c =>
        rw [members_applyRegOp_join g c st hg]
        split
        · exact hN
        · next hc => simp [List.nodup_append, hN, hc]
      | leave c =>
        rw [members_applyRegOp_leave g c st]
        exact hN.erase c
    have hstep : ∀ ch, decide (ch ∈ members g (applyRegOp g st op)) =
        (match op with
          | RegOp.join c => if c = ch then true else decide (ch ∈ members g st)
          | RegOp.leave c =>
            if c = ch then false else decide (ch ∈ members g st)) := by
      intro ch
      cases op with
      | join c =>
        rw [members_applyRegOp_join g c st hg]
        by_cases hc : c = ch
        · subst hc
          simp only [if_pos rfl]
          split
          · next h => simp [h]
          · simp
        · simp only [if_neg hc]
          split
          · rfl
          · refine decide_eq_decide.mpr ?_
            rw [List.mem_append, List.mem_singleton]
            exact ⟨fun h => h.elim id (fun h2 => absurd h2.symm hc),
              fun h => Or.inl h⟩
      | leave c =>
        rw [members_applyRegOp_leave g c st]
        by_cases hc : c = ch
        · subst hc
          simp only [if_pos rfl]
          simpa using hN.not_mem_erase
        · simp only [if_neg hc]
          exact decide_eq_decide.mpr
            (List.mem_erase_of_ne fun h => hc h.symm)
    obtain ⟨h1, h2⟩ := ih (applyRegOp g st op) hN'
    refine ⟨by simpa [List.foldl_cons] using h1, fun ch => ?_⟩
    rw [List.foldl_cons, h2 ch, hstep ch]
    cases op <;> rfl

/-- C5: after any finite sequence of joins and leaves on a room, the
member set is exactly the set of channels whose joins-since-last-leave
exceed their leaves, join never creates a duplicate membership, and a
leave of a non-member or of an absent room is a no-op that raises no
error. -/
theorem registry_matches_join_leave_history (g ch c : String)
    (ops : List RegOp) (st : Registry)
    (hg : validGroupName g = true) (hc : c ∉ members g st) :
    (ch ∈ members g (ops.foldl (applyRegOp g) emptyRegistry) ↔
      specMember ch ops = true) ∧
    (members g (ops.foldl (applyRegOp g) emptyRegistry)).Nodup ∧
    group_discard g c st = st := by
  obtain ⟨h1, h2⟩ := foldl_applyRegOp_invariant g hg ops emptyRegistry
    (by simp [members, emptyRegistry])
  refine ⟨?_, h1, ?_⟩
  · rw [h2 ch]
    simp [specMember, members, emptyRegistry]
  · funext g2
    simp only [group_discard]
    by_cases hgg : g2 = g
    · subst hgg
      rw [if_pos rfl]
      exact List.erase_of_not_mem hc
    · rw [if_neg hgg]

/-- Witness for C5: A joins twice, B joins, A leaves; A is not a member,
the member list has no duplicate, and a leave on the empty registry is a
no-op. -/
theorem registry_matches_join_leave_history_witness :
    (("A" : String) ∈ members "room1"
        ([RegOp.join "A", RegOp.join "A", RegOp.join "B",
          RegOp.leave "A"].foldl (applyRegOp "room1") emptyRegistry) ↔
      specMember "A" [RegOp.join "A", RegOp.join "A", RegOp.join "B",
        RegOp.leave "A"] = true) ∧
    (members "room1"
      ([RegOp.join "A", RegOp.join "A", RegOp.join "B",
        RegOp.leave "A"].foldl (applyRegOp "room1") emptyRegistry)).Nodup ∧
    group_discard "room1" "C" emptyRegistry = emptyRegistry :=
  registry_matches_join_leave_history "room1" "A" "C"
    [RegOp.join "A", RegOp.join "A", RegOp.join "B", RegOp.leave "A"]
    emptyRegistry (by decide) (by decide)
